import Mathlib

/-!
Verification of the Awair air-quality preprocessing pipeline
(src/preprocessing.py) against its specification.

The pipeline is embedded shallowly:
* sensor values are exact rationals (the source converts numbers to
  `decimal.Decimal` via their decimal string before rounding, so rational
  arithmetic models the intended exact-decimal semantics);
* `decimal.ROUND_HALF_UP` at precision "1." is `roundHalfUp : Q -> Z`,
  rounding to the nearest integer with ties away from zero;
* tabular datasets are lists of records; `pandas.groupby` is modelled by
  deduplicated key extraction plus filtering;
* in-place mutation of the `daily` dataset by `monthly_stats` is modelled by
  explicit state passing: `monthly_stats` returns the mutated daily dataset
  together with the monthly dataset;
* `sys.exit(1)` on configuration errors is modelled by an error result that
  short-circuits the rest of the run (`run_pipeline`).
-/

/-- `decimal.Decimal(str(value)).quantize(Decimal("1."))` under the
`decimal.ROUND_HALF_UP` context set at module import: round to the nearest
integer, ties away from zero. -/
def roundHalfUp (q : ℚ) : ℤ :=
  if 0 ≤ q then ⌊q + 1 / 2⌋ else -⌊-q + 1 / 2⌋

/-- Calendar date (the pipeline works in the canonical timezone
Europe/Vienna; all dates and hours below are already in that timezone,
as produced by `convert_datetime`). -/
structure Date where
  year : ℤ
  month : ℤ
  day : ℤ
deriving DecidableEq, Repr

/-- The datetime64[M] cast: truncate a date to the first of its month. -/
def truncToMonth (d : Date) : Date :=
  { year := d.year, month := d.month, day := 1 }

/-- A timezone-aware instant in the canonical timezone, decomposed the way
the source consumes it (`dt.date`, `dt.hour`, remaining sub-hour part). -/
structure Timestamp where
  date : Date
  hour : ℤ
  minute : ℤ
deriving DecidableEq, Repr

/-- Lexicographic strict order on dates. -/
def Date.ltb (a b : Date) : Bool :=
  a.year < b.year ∨ (a.year = b.year ∧
    (a.month < b.month ∨ (a.month = b.month ∧ a.day < b.day)))

/-- Lexicographic strict order on timestamps. -/
def Timestamp.ltb (a b : Timestamp) : Bool :=
  a.date.ltb b.date ∨ (a.date = b.date ∧
    (a.hour < b.hour ∨ (a.hour = b.hour ∧ a.minute < b.minute)))

/-- Non-strict order on timestamps. -/
def Timestamp.leb (a b : Timestamp) : Bool :=
  Timestamp.ltb a b ∨ a = b

/-- A raw sensor reading: (station_id, measure_time, value). -/
structure Reading where
  station_id : ℤ
  measure_time : Timestamp
  value : ℚ
deriving DecidableEq, Repr

/-- One row of the hourly dataset: (station_id, date, hour, value),
value already rounded to an integer. -/
structure HourlyRecord where
  station_id : ℤ
  date : Date
  hour : ℤ
  value : ℤ
deriving DecidableEq, Repr

/-- One row of the daily dataset.  `perc_of_norm` is `none` until the
`perc_of_norm` step adds the column. -/
structure DailyRecord where
  station_id : ℤ
  date : Date
  min : ℤ
  max : ℤ
  mean : ℤ
  perc_of_norm : Option ℤ
deriving DecidableEq, Repr

/-- One row of the monthly dataset (before the station-info join). -/
structure MonthlyRecord where
  station_id : ℤ
  date : Date
  mean : ℤ
  max : ℤ
  days_num : ℕ
  days_abv_norm : ℕ
  days_abv_200 : ℕ
  days_abv_300 : ℕ
deriving DecidableEq, Repr

/-- A row of the station metadata table. -/
structure StationInfo where
  id : ℤ
  name : String
  address : String
  district_id : ℤ
  district : String
  lat : ℚ
  lon : ℚ
deriving DecidableEq, Repr

/-- Minimum of a list with a default for the empty list (pandas `min`
aggregation; only applied to non-empty groups). -/
def listMinD {α : Type} [LinearOrder α] (d : α) : List α → α
  | [] => d
  | x :: xs => xs.foldl min x

/-- Maximum of a list with a default for the empty list (pandas `max`
aggregation; only applied to non-empty groups). -/
def listMaxD {α : Type} [LinearOrder α] (d : α) : List α → α
  | [] => d
  | x :: xs => xs.foldl max x

/-- Arithmetic mean (pandas `mean` aggregation). -/
def qmean (l : List ℚ) : ℚ :=
  l.sum / l.length

/-- Insert into a sorted list (helper for `sortBy`). -/
def insertSorted {α : Type} (leb : α → α → Bool) (a : α) : List α → List α
  | [] => [a]
  | b :: bs => if leb a b then a :: b :: bs else b :: insertSorted leb a bs

/-- Insertion sort; models `pandas.sort_values` (only the multiset of rows
matters for the properties below). -/
def sortBy {α : Type} (leb : α → α → Bool) : List α → List α
  | [] => []
  | a :: as => insertSorted leb a (sortBy leb as)

/-- The distinct group keys of a dataset, in order of first appearance
(models the index of `pandas.groupby`). -/
def groupKeys {α κ : Type} [DecidableEq κ] (key : α → κ) (l : List α) : List κ :=
  (l.map key).dedup

/-- `Awair.remove_duplicates`: drop rows that are exact duplicates across
all three fields (`DataFrame.drop_duplicates`, keeping first occurrences). -/
def remove_duplicates (data : List Reading) : List Reading :=
  data.dedup

/-- Sort key used by `Awair.sort_values` with the default order
(station_id, measure_time). -/
def Reading.leb (a b : Reading) : Bool :=
  a.station_id < b.station_id ∨
    (a.station_id = b.station_id ∧ Timestamp.leb a.measure_time b.measure_time)

/-- `Awair.sort_values` with the default sort order. -/
def sort_values (data : List Reading) : List Reading :=
  sortBy Reading.leb data

/-- `Awair.limit_time_range`: keep rows with
`lower_band <= measure_time < upper_band` (half-open window). -/
def limit_time_range (lower_band upper_band : Timestamp)
    (data : List Reading) : List Reading :=
  data.filter fun r =>
    Timestamp.leb lower_band r.measure_time &&
      Timestamp.ltb r.measure_time upper_band

/-- Hourly group key: (station_id, date, hour) of a reading, the columns
built from `measure_time.dt.date` and `measure_time.dt.hour`. -/
def hourlyKey (r : Reading) : ℤ × Date × ℤ :=
  (r.station_id, r.measure_time.date, r.measure_time.hour)

/-- The hourly group of key `k`: the readings with that (station, date,
hour). -/
def hourlyGroup (data : List Reading) (k : ℤ × Date × ℤ) : List Reading :=
  data.filter fun r => hourlyKey r = k

/-- The `HourlyRecord` produced for group key `k`: the arithmetic mean of
the group values, rounded by `_round_values`. -/
def mkHourly (data : List Reading) (k : ℤ × Date × ℤ) : HourlyRecord :=
  { station_id := k.1, date := k.2.1, hour := k.2.2,
    value := roundHalfUp (qmean ((hourlyGroup data k).map Reading.value)) }

/-- `Awair.hourly_stats`: group by (station_id, date, hour), aggregate the
mean of `value` per group, round each mean with `_round_values`. -/
def hourly_stats (data : List Reading) : List HourlyRecord :=
  (groupKeys hourlyKey data).map (mkHourly data)

/-- Daily group key of an hourly row: (station_id, date). -/
def dailyKey (h : HourlyRecord) : ℤ × Date :=
  (h.station_id, h.date)

/-- The daily group of key `k`: the hourly rows with that (station, date). -/
def dailyGroup (hourly : List HourlyRecord) (k : ℤ × Date) : List HourlyRecord :=
  hourly.filter fun h => dailyKey h = k

/-- The `DailyRecord` produced for a qualifying group key `k`: min, max and
mean of the hourly values (taken as floats), each rounded with
`_round_values`.  The `perc_of_norm` column does not exist yet. -/
def mkDaily (hourly : List HourlyRecord) (k : ℤ × Date) : DailyRecord :=
  { station_id := k.1, date := k.2,
    min := roundHalfUp (listMinD 0 (((dailyGroup hourly k).map HourlyRecord.value).map Int.cast)),
    max := roundHalfUp (listMaxD 0 (((dailyGroup hourly k).map HourlyRecord.value).map Int.cast)),
    mean := roundHalfUp (qmean (((dailyGroup hourly k).map HourlyRecord.value).map Int.cast)),
    perc_of_norm := none }

/-- `Awair.daily_stats`: keep the (station_id, date) groups whose hourly
count reaches `min_hour` (default 18), then aggregate min, max, mean of the
hourly values per group, rounding each with `_round_values`. -/
def daily_stats (hourly : List HourlyRecord) (min_hour : ℕ) : List DailyRecord :=
  ((groupKeys dailyKey hourly).filter
      (fun k => min_hour ≤ (dailyGroup hourly k).length)).map (mkDaily hourly)

/-- `Awair.perc_of_norm`: add the `perc_of_norm` column,
`round_half_up(mean / norm * 100)` (default norm 50, precision "1."). -/
def perc_of_norm (norm : ℚ) (daily : List DailyRecord) : List DailyRecord :=
  daily.map fun d =>
    { d with perc_of_norm := some (roundHalfUp ((d.mean : ℚ) / norm * 100)) }

/-- The in-place update `monthly_stats` performs on the daily dataset
before grouping: the mean column is cast to float (value preserving on
exact decimals) and the date column is cast to datetime64[M] (truncate
every date to the first of its month). -/
def truncDaily (daily : List DailyRecord) : List DailyRecord :=
  daily.map fun d => { d with date := truncToMonth d.date }

/-- Monthly group key of a (date-truncated) daily row: (station_id, month). -/
def monthlyKey (d : DailyRecord) : ℤ × Date :=
  (d.station_id, d.date)

/-- The monthly group of key `k` inside the date-truncated daily dataset. -/
def monthlyGroup (daily2 : List DailyRecord) (k : ℤ × Date) : List DailyRecord :=
  daily2.filter fun d => monthlyKey d = k

/-- The `MonthlyRecord` for group key `k` of the date-truncated daily
dataset `daily2`: mean of the daily means and max of the daily maxes, each
rounded with `_round_values`; `size` of the group; counts of daily means
strictly above 50, 200 and 300. -/
def mkMonthly (daily2 : List DailyRecord) (k : ℤ × Date) : MonthlyRecord :=
  { station_id := k.1, date := k.2,
    mean := roundHalfUp (qmean (((monthlyGroup daily2 k).map DailyRecord.mean).map Int.cast)),
    max := roundHalfUp (listMaxD 0 (((monthlyGroup daily2 k).map DailyRecord.max).map Int.cast)),
    days_num := (monthlyGroup daily2 k).length,
    days_abv_norm := (((monthlyGroup daily2 k).map DailyRecord.mean).filter (fun m => 50 < m)).length,
    days_abv_200 := (((monthlyGroup daily2 k).map DailyRecord.mean).filter (fun m => 200 < m)).length,
    days_abv_300 := (((monthlyGroup daily2 k).map DailyRecord.mean).filter (fun m => 300 < m)).length }

/-- Sort key used by the monthly sort_values on (station_id, date). -/
def MonthlyRecord.leb (a b : MonthlyRecord) : Bool :=
  a.station_id < b.station_id ∨
    (a.station_id = b.station_id ∧ (a.date.ltb b.date ∨ a.date = b.date))

/-- `Awair.monthly_stats`.  The method first mutates `self.daily` in place
(`truncDaily`), then groups the mutated dataset by (station_id, date),
aggregates, and sorts by (station_id, date).  The pair returned is
(daily dataset after the call, monthly dataset), making the in-place
mutation of `self.daily` explicit. -/
def monthly_stats (daily : List DailyRecord) :
    List DailyRecord × List MonthlyRecord :=
  (truncDaily daily,
    sortBy MonthlyRecord.leb
      ((groupKeys monthlyKey (truncDaily daily)).map
        (mkMonthly (truncDaily daily))))

/-- `Awair.add_station_info` without the file check: left join of the
monthly dataset with the station table on `station_id = id`; unmatched
stations keep absent metadata. -/
def station_join (stations : List StationInfo)
    (monthly : List MonthlyRecord) : List (MonthlyRecord × Option StationInfo) :=
  monthly.map fun m => (m, stations.find? fun s => s.id = m.station_id)

/-- Everything `Awair.read_data` and `add_station_info` look at before any
stage runs: whether the input and station files exist, the input file
extension, and the file contents. -/
structure PipelineInput where
  inputExists : Bool
  extension : String
  dbContent : List Reading
  csvContent : List Reading
  stationExists : Bool
  stations : List StationInfo

/-- `Awair.read_data`: missing file or an extension other than ".db" or
".csv" is fatal (`sys.exit(1)` after an error message, modelled as an
error result). -/
def read_data (inp : PipelineInput) : Except String (List Reading) :=
  if inp.inputExists = false then
    Except.error ("Input file does not exist")
  else if inp.extension = ".db" then
    Except.ok inp.dbContent
  else if inp.extension = ".csv" then
    Except.ok inp.csvContent
  else
    Except.error ("Invalid source extension. Permitted extensions are .db for sqlite file or .csv")

/-- `Awair.add_station_info`: a missing station file is fatal
(`sys.exit(1)`), otherwise the join is performed. -/
def add_station_info (inp : PipelineInput) (monthly : List MonthlyRecord) :
    Except String (List (MonthlyRecord × Option StationInfo)) :=
  if inp.stationExists = false then
    Except.error ("Station file does not exist")
  else
    Except.ok (station_join inp.stations monthly)

/-- Outcome of one run: the output files written (in order) and the fatal
error message when the process exited with a non-zero status. -/
structure PipelineResult where
  outputs : List String
  exitError : Option String
deriving DecidableEq, Repr

/-- `main`: construct `Awair` (which reads the input file), then run
`preprocess_data`, `generate_hourly_stats`, `generate_daily_stats`,
`generate_monthly_stats` in order, each exporting its csv after its
computation; `sys.exit(1)` anywhere stops the run. -/
def run_pipeline (inp : PipelineInput) (lower_band upper_band : Timestamp)
    (min_hour : ℕ) (norm : ℚ) : PipelineResult :=
  match read_data inp with
  | Except.error e => { outputs := [], exitError := some e }
  | Except.ok data0 =>
      let data := limit_time_range lower_band upper_band
        (sort_values (remove_duplicates data0))
      let hourly := hourly_stats data
      let daily := perc_of_norm norm (daily_stats hourly min_hour)
      let md := monthly_stats daily
      match add_station_info inp md.2 with
      | Except.error e =>
          { outputs := ["data.csv", "hourly_stats.csv", "daily_stats.csv"],
            exitError := some e }
      | Except.ok _ =>
          { outputs := ["data.csv", "hourly_stats.csv", "daily_stats.csv",
                        "monthly_stats.csv"],
            exitError := none }

/-! ### Concrete datasets used to exercise the theorems -/

/-- A month of four qualifying days with daily means 40, 60, 210, 310
(station 1, April 2019). -/
def exDailyC4 : List DailyRecord :=
  [⟨1, ⟨2019, 4, 1⟩, 0, 40, 40, none⟩, ⟨1, ⟨2019, 4, 2⟩, 0, 60, 60, none⟩,
   ⟨1, ⟨2019, 4, 3⟩, 0, 210, 210, none⟩, ⟨1, ⟨2019, 4, 4⟩, 0, 310, 310, none⟩]

/-- The monthly record the pipeline produces for `exDailyC4`:
mean 155, max 310, days_num 4, days_abv_norm 3, days_abv_200 2,
days_abv_300 1. -/
def exMonthlyC4 : MonthlyRecord :=
  ⟨1, ⟨2019, 4, 1⟩, 155, 310, 4, 3, 2, 1⟩

/-- A single daily record (station 1, 2019-04-15, mean 20, max 30). -/
def exDailyC9 : List DailyRecord :=
  [⟨1, ⟨2019, 4, 15⟩, 10, 30, 20, none⟩]

/-- The monthly record the pipeline produces for `exDailyC9`. -/
def exMonthlyC9 : MonthlyRecord :=
  ⟨1, ⟨2019, 4, 1⟩, 20, 30, 1, 0, 0, 0⟩

/-- A single hourly record (station 1, 2019-04-05, hour 3, value 10). -/
def exHourlyC10 : List HourlyRecord :=
  [⟨1, ⟨2019, 4, 5⟩, 3, 10⟩]

/-- The daily record the pipeline produces for `exHourlyC10` with
threshold 1. -/
def exDailyC10 : DailyRecord :=
  ⟨1, ⟨2019, 4, 5⟩, 10, 10, 10, none⟩

/-- A daily dataset with a single record of mean 75. -/
def exDailyC7 : List DailyRecord :=
  [⟨1, ⟨2019, 4, 5⟩, 70, 80, 75, none⟩]

/-- The record of `exDailyC7` after `perc_of_norm` with norm 50:
perc_of_norm is 150. -/
def exDailyC7out : DailyRecord :=
  ⟨1, ⟨2019, 4, 5⟩, 70, 80, 75, some 150⟩

/-- A pipeline input whose input file is missing. -/
def exInputC8 : PipelineInput :=
  { inputExists := false, extension := ".csv", dbContent := [],
    csvContent := [], stationExists := true, stations := [] }

/-! ### Helper lemmas -/

theorem roundHalfUp_intCast (n : ℤ) : roundHalfUp (n : ℚ) = n := by
  unfold roundHalfUp
  by_cases h : (0 : ℚ) ≤ (n : ℚ)
  · rw [if_pos h, Int.floor_int_add]
    norm_num
  · rw [if_neg h]
    have : -(n : ℚ) = ((-n : ℤ) : ℚ) := by push_cast; ring
    rw [this, Int.floor_int_add]
    norm_num

theorem roundHalfUp_mono {a b : ℚ} (h : a ≤ b) :
    roundHalfUp a ≤ roundHalfUp b := by
  unfold roundHalfUp
  by_cases ha : (0 : ℚ) ≤ a
  · have hb : (0 : ℚ) ≤ b := le_trans ha h
    rw [if_pos ha, if_pos hb]
    exact Int.floor_mono (by linarith)
  · by_cases hb : (0 : ℚ) ≤ b
    · rw [if_neg ha, if_pos hb]
      have h1 : (0 : ℤ) ≤ ⌊-a + 1 / 2⌋ := Int.floor_nonneg.mpr (by linarith)
      have h2 : (0 : ℤ) ≤ ⌊b + 1 / 2⌋ := Int.floor_nonneg.mpr (by linarith)
      omega
    · rw [if_neg ha, if_neg hb]
      have : ⌊-b + 1 / 2⌋ ≤ ⌊-a + 1 / 2⌋ := Int.floor_mono (by linarith)
      omega

theorem foldl_min_le_init {α : Type} [LinearOrder α] :
    ∀ (l : List α) (a : α), l.foldl min a ≤ a := by
  intro l
  induction l with
  | nil => intro a; exact le_refl a
  | cons y ys ih =>
    intro a
    calc (y :: ys).foldl min a = ys.foldl min (min a y) := rfl
    _ ≤ min a y := ih (min a y)
    _ ≤ a := min_le_left a y

theorem foldl_min_le_mem {α : Type} [LinearOrder α] :
    ∀ (l : List α) (a x : α), x ∈ l → l.foldl min a ≤ x := by
  intro l
  induction l with
  | nil => intro a x hx; cases hx
  | cons y ys ih =>
    intro a x hx
    rcases List.mem_cons.mp hx with rfl | hmem
    · calc (x :: ys).foldl min a = ys.foldl min (min a x) := rfl
      _ ≤ min a x := foldl_min_le_init ys (min a x)
      _ ≤ x := min_le_right a x
    · exact ih (min a y) x hmem

theorem init_le_foldl_max {α : Type} [LinearOrder α] :
    ∀ (l : List α) (a : α), a ≤ l.foldl max a := by
  intro l
  induction l with
  | nil => intro a; exact le_refl a
  | cons y ys ih =>
    intro a
    calc a ≤ max a y := le_max_left a y
    _ ≤ ys.foldl max (max a y) := ih (max a y)
    _ = (y :: ys).foldl max a := rfl

theorem mem_le_foldl_max {α : Type} [LinearOrder α] :
    ∀ (l : List α) (a x : α), x ∈ l → x ≤ l.foldl max a := by
  intro l
  induction l with
  | nil => intro a x hx; cases hx
  | cons y ys ih =>
    intro a x hx
    rcases List.mem_cons.mp hx with rfl | hmem
    · calc x ≤ max a x := le_max_right a x
      _ ≤ ys.foldl max (max a x) := init_le_foldl_max ys (max a x)
      _ = (x :: ys).foldl max a := rfl
    · exact ih (max a y) x hmem

theorem listMinD_le {α : Type} [LinearOrder α] (d : α) (l : List α) (x : α)
    (hx : x ∈ l) : listMinD d l ≤ x := by
  cases l with
  | nil => cases hx
  | cons a as =>
    rcases List.mem_cons.mp hx with rfl | h
    · exact foldl_min_le_init as x
    · exact foldl_min_le_mem as a x h

theorem le_listMaxD {α : Type} [LinearOrder α] (d : α) (l : List α) (x : α)
    (hx : x ∈ l) : x ≤ listMaxD d l := by
  cases l with
  | nil => cases hx
  | cons a as =>
    rcases List.mem_cons.mp hx with rfl | h
    · exact init_le_foldl_max as x
    · exact mem_le_foldl_max as a x h

theorem qmean_le_listMaxD (l : List ℚ) (hl : l ≠ []) :
    qmean l ≤ listMaxD 0 l := by
  have hlen : (0 : ℚ) < (l.length : ℚ) := by
    exact_mod_cast List.length_pos.mpr hl
  have hsum : l.sum ≤ (l.length : ℚ) * listMaxD 0 l := by
    have h := List.sum_le_card_nsmul l (listMaxD 0 l)
      (fun x hx => le_listMaxD 0 l x hx)
    rwa [nsmul_eq_mul] at h
  unfold qmean
  rw [div_le_iff₀ hlen]
  nlinarith

theorem listMinD_le_qmean (l : List ℚ) (hl : l ≠ []) :
    listMinD 0 l ≤ qmean l := by
  have hlen : (0 : ℚ) < (l.length : ℚ) := by
    exact_mod_cast List.length_pos.mpr hl
  have hsum : (l.length : ℚ) * listMinD 0 l ≤ l.sum := by
    have h := List.card_nsmul_le_sum l (listMinD 0 l)
      (fun x hx => listMinD_le 0 l x hx)
    rwa [nsmul_eq_mul] at h
  unfold qmean
  rw [le_div_iff₀ hlen]
  nlinarith

theorem insertSorted_perm {α : Type} (leb : α → α → Bool) (a : α) :
    ∀ l : List α, (insertSorted leb a l).Perm (a :: l) := by
  intro l
  induction l with
  | nil => exact List.Perm.refl [a]
  | cons b bs ih =>
    rw [insertSorted]
    by_cases h : leb a b
    · rw [if_pos h]
    · rw [if_neg h]
      exact (ih.cons b).trans (List.Perm.swap a b bs)

theorem sortBy_perm {α : Type} (leb : α → α → Bool) :
    ∀ l : List α, (sortBy leb l).Perm l := by
  intro l
  induction l with
  | nil => exact List.Perm.refl []
  | cons a as ih =>
    rw [sortBy]
    exact (insertSorted_perm leb a (sortBy leb as)).trans (ih.cons a)

theorem filter_map_key {κ β : Type} [DecidableEq κ] (f : κ → β) (keyOf : β → κ)
    (hf : ∀ k, keyOf (f k) = k) :
    ∀ (ks : List κ), ks.Nodup → ∀ k : κ,
      (ks.map f).filter (fun b => keyOf b = k) =
        if k ∈ ks then [f k] else [] := by
  intro ks
  induction ks with
  | nil => intro _ k; simp
  | cons a t ih =>
    intro hnd k
    rcases List.nodup_cons.mp hnd with ⟨ha, ht⟩
    by_cases hak : a = k
    · subst hak
      have ht' := ih ht a
      rw [if_neg ha] at ht'
      simp [List.filter_cons, hf, ht']
    · have ht' := ih ht k
      have hka : ¬k = a := fun h => hak h.symm
      simp only [List.map_cons, List.filter_cons, hf, ht']
      simp [hka, hak]

theorem mem_groupKeys {α κ : Type} [DecidableEq κ] (key : α → κ)
    (l : List α) (k : κ) :
    k ∈ groupKeys key l ↔ ∃ x ∈ l, key x = k := by
  simp [groupKeys, List.mem_dedup]

theorem groupKeys_nodup {α κ : Type} [DecidableEq κ] (key : α → κ)
    (l : List α) : (groupKeys key l).Nodup :=
  List.nodup_dedup _

theorem filter_key_ne_nil_iff {α κ : Type} [DecidableEq κ] (key : α → κ)
    (l : List α) (k : κ) :
    (l.filter fun x => key x = k) ≠ [] ↔ k ∈ groupKeys key l := by
  rw [mem_groupKeys]
  constructor
  · intro h
    rcases List.exists_mem_of_ne_nil _ h with ⟨x, hx⟩
    rcases List.mem_filter.mp hx with ⟨hxl, hxk⟩
    exact ⟨x, hxl, by simpa using hxk⟩
  · rintro ⟨x, hxl, hk⟩ hnil
    have hx : x ∈ l.filter fun x => key x = k :=
      List.mem_filter.mpr ⟨hxl, by simp [hk]⟩
    rw [hnil] at hx
    cases hx

theorem hourlyGroup_ne_nil_iff (data : List Reading) (k : ℤ × Date × ℤ) :
    hourlyGroup data k ≠ [] ↔ k ∈ groupKeys hourlyKey data :=
  filter_key_ne_nil_iff hourlyKey data k

theorem dailyGroup_ne_nil_iff (hourly : List HourlyRecord) (k : ℤ × Date) :
    dailyGroup hourly k ≠ [] ↔ k ∈ groupKeys dailyKey hourly :=
  filter_key_ne_nil_iff dailyKey hourly k

theorem length_filter_mono {α : Type} (p q : α → Bool) (l : List α)
    (h : ∀ x ∈ l, p x = true → q x = true) :
    (l.filter p).length ≤ (l.filter q).length := by
  induction l with
  | nil => exact le_refl 0
  | cons a t ih =>
    have ih' := ih fun x hx => h x (List.mem_cons_of_mem a hx)
    by_cases hpa : p a = true
    · rw [List.filter_cons_of_pos hpa,
        List.filter_cons_of_pos (h a (List.mem_cons_self a t) hpa)]
      exact Nat.succ_le_succ ih'
    · rw [List.filter_cons_of_neg (by simpa using hpa)]
      by_cases hqa : q a = true
      · rw [List.filter_cons_of_pos hqa]
        exact le_trans ih' (Nat.le_succ _)
      · rw [List.filter_cons_of_neg (by simpa using hqa)]
        exact ih'

/-! ### Claims -/

/-- C5: the rounding function used at every stage (`_round_values` and the
inline rounding in `perc_of_norm`, both `Decimal.quantize` at precision
"1." under `decimal.ROUND_HALF_UP`) is idempotent — rounding an already
rounded value returns it unchanged — and rounds half-way values away from
zero: 2.5 rounds to 3 and -2.5 rounds to -3.  The exact-decimal semantics
of `decimal.Decimal(str(value))` is modelled by computing on exact
rationals. -/
theorem rounding_idempotent_and_half_away_from_zero :
    (∀ q : ℚ, roundHalfUp ((roundHalfUp q : ℤ) : ℚ) = roundHalfUp q) ∧
      roundHalfUp (5 / 2) = 3 ∧ roundHalfUp (-(5 / 2)) = -3 := by
  refine ⟨fun q => roundHalfUp_intCast (roundHalfUp q), ?_, ?_⟩
  · unfold roundHalfUp
    rw [if_pos (by norm_num)]
    norm_num
  · unfold roundHalfUp
    rw [if_neg (by norm_num)]
    norm_num

/-- C6: `limit_time_range` keeps a reading exactly when
`lower_band <= measure_time < upper_band` (half-open window); concretely,
with window [2019-04-01 00:00, 2019-05-01 00:00) a reading at the lower
bound is retained and a reading at the upper bound is removed. -/
theorem time_window_half_open :
    (∀ (lower_band upper_band : Timestamp) (data : List Reading) (r : Reading),
        r ∈ limit_time_range lower_band upper_band data ↔
          r ∈ data ∧ Timestamp.leb lower_band r.measure_time = true ∧
            Timestamp.ltb r.measure_time upper_band = true) ∧
      limit_time_range ⟨⟨2019, 4, 1⟩, 0, 0⟩ ⟨⟨2019, 5, 1⟩, 0, 0⟩
          [⟨1, ⟨⟨2019, 4, 1⟩, 0, 0⟩, 10⟩, ⟨1, ⟨⟨2019, 5, 1⟩, 0, 0⟩, 20⟩] =
        [⟨1, ⟨⟨2019, 4, 1⟩, 0, 0⟩, 10⟩] := by
  constructor
  · intro lower_band upper_band data r
    unfold limit_time_range
    rw [List.mem_filter]
    simp
  · simp [limit_time_range, Timestamp.leb, Timestamp.ltb, Date.ltb, List.filter]

/-- C3: for every non-empty (station_id, date, hour) group of cleaned
readings, `hourly_stats` produces exactly one `HourlyRecord`, whose value
is the arithmetic mean of the group values rounded to the nearest integer
with ties away from zero; keys with no readings produce no record; and
readings with values 10, 20, 30 in one (station, date, hour) group yield
the single record with value 20. -/
theorem hourly_stage_one_rounded_mean_per_group :
    (∀ (data : List Reading) (k : ℤ × Date × ℤ),
        (hourly_stats data).filter (fun h => (h.station_id, h.date, h.hour) = k) =
          if hourlyGroup data k ≠ [] then
            [{ station_id := k.1, date := k.2.1, hour := k.2.2,
               value := roundHalfUp (qmean ((hourlyGroup data k).map Reading.value)) }]
          else []) ∧
      hourly_stats
          [⟨1, ⟨⟨2019, 4, 5⟩, 5, 0⟩, 10⟩, ⟨1, ⟨⟨2019, 4, 5⟩, 5, 20⟩, 20⟩,
            ⟨1, ⟨⟨2019, 4, 5⟩, 5, 40⟩, 30⟩] =
        [⟨1, ⟨2019, 4, 5⟩, 5, 20⟩] := by
  constructor
  · intro data k
    simp only [hourly_stats]
    rw [filter_map_key (mkHourly data) (fun h => (h.station_id, h.date, h.hour))
        (fun k => rfl) (groupKeys hourlyKey data) (groupKeys_nodup hourlyKey data) k]
    by_cases hk : hourlyGroup data k ≠ []
    · rw [if_pos ((hourlyGroup_ne_nil_iff data k).mp hk), if_pos hk]
      rfl
    · rw [if_neg (fun hmem => hk ((hourlyGroup_ne_nil_iff data k).mpr hmem)),
        if_neg hk]
  · simp [hourly_stats, groupKeys, hourlyKey, mkHourly, hourlyGroup, qmean,
      roundHalfUp, List.filter]
    norm_num

/-- C2: a (station_id, date) group of hourly records yields a
`DailyRecord` exactly when its hourly count reaches `min_hour`; with the
default threshold 18, a group of 17 hourly records produces no daily row
while a group of 18 produces exactly one, and the exclusion is silent (the
stage is a total function). -/
theorem daily_completeness_gate :
    (∀ (hourly : List HourlyRecord) (min_hour : ℕ) (k : ℤ × Date),
        ((daily_stats hourly min_hour).filter
            (fun d => (d.station_id, d.date) = k)).length =
          if dailyGroup hourly k ≠ [] ∧ min_hour ≤ (dailyGroup hourly k).length
          then 1 else 0) ∧
      (daily_stats ((List.range 17).map fun h => ⟨1, ⟨2019, 4, 5⟩, (h : ℤ), 10⟩)
          18).length = 0 ∧
      (daily_stats ((List.range 18).map fun h => ⟨1, ⟨2019, 4, 5⟩, (h : ℤ), 10⟩)
          18).length = 1 := by
  refine ⟨?_, ?_, ?_⟩
  · intro hourly min_hour k
    simp only [daily_stats]
    rw [filter_map_key (mkDaily hourly) (fun d => (d.station_id, d.date))
        (fun k => rfl) _ ((groupKeys_nodup dailyKey hourly).filter _) k]
    have hmem : k ∈ (groupKeys dailyKey hourly).filter
          (fun k => min_hour ≤ (dailyGroup hourly k).length) ↔
        dailyGroup hourly k ≠ [] ∧ min_hour ≤ (dailyGroup hourly k).length := by
      rw [List.mem_filter, ← dailyGroup_ne_nil_iff]
      simp
    by_cases h1 : dailyGroup hourly k ≠ [] ∧ min_hour ≤ (dailyGroup hourly k).length
    · rw [if_pos (hmem.mpr h1), if_pos h1]
      rfl
    · rw [if_neg (fun hm => h1 (hmem.mp hm)), if_neg h1]
      rfl
  · simp [daily_stats, groupKeys, dailyKey, dailyGroup, List.range_succ]
  · simp [daily_stats, groupKeys, dailyKey, dailyGroup, List.range_succ]

/-- C1 counterexample: the claim that the daily dataset observed after
`generate_daily_stats` equals the daily dataset observed after
`generate_monthly_stats` is false: `monthly_stats` mutates `self.daily` in
place, truncating every date to the first of its month, so a daily record
dated 2019-04-15 has date 2019-04-01 after the monthly stage. -/
theorem daily_dataset_changed_by_monthly_stage :
    (monthly_stats [⟨1, ⟨2019, 4, 15⟩, 10, 30, 20, some 40⟩]).1 ≠
      [⟨1, ⟨2019, 4, 15⟩, 10, 30, 20, some 40⟩] := by
  decide

/-- C1 amended: the monthly stage does mutate the daily dataset in place,
but only by truncating each record date to the first of its month (the
`astype(float)` on the mean column preserves the value); station_id, min,
max, mean and perc_of_norm are unchanged.  The daily dataset after the
monthly stage is the date-truncated image of the daily dataset the daily
stage produced. -/
theorem monthly_stage_truncates_daily_dates :
    ∀ daily : List DailyRecord,
      (monthly_stats daily).1 = truncDaily daily ∧
        (monthly_stats daily).1 =
          daily.map fun d =>
            { station_id := d.station_id, date := truncToMonth d.date,
              min := d.min, max := d.max, mean := d.mean,
              perc_of_norm := d.perc_of_norm } :=
  fun _ => ⟨rfl, rfl⟩

/-- C10: every `DailyRecord` produced by the daily stage satisfies
min <= mean <= max: the three statistics are computed over the same group
of hourly values and the half-up rounding is monotone. -/
theorem daily_min_le_mean_le_max (hourly : List HourlyRecord) (min_hour : ℕ)
    (d : DailyRecord) (hd : d ∈ daily_stats hourly min_hour) :
    d.min ≤ d.mean ∧ d.mean ≤ d.max := by
  simp only [daily_stats] at hd
  rcases List.mem_map.mp hd with ⟨k, hk, rfl⟩
  have hkeys : k ∈ groupKeys dailyKey hourly := (List.mem_filter.mp hk).1
  have hne : dailyGroup hourly k ≠ [] :=
    (dailyGroup_ne_nil_iff hourly k).mpr hkeys
  have hvals : ((dailyGroup hourly k).map HourlyRecord.value).map
      (Int.cast : ℤ → ℚ) ≠ [] := by
    intro hmap
    apply hne
    simpa using hmap
  exact ⟨roundHalfUp_mono (listMinD_le_qmean _ hvals),
    roundHalfUp_mono (qmean_le_listMaxD _ hvals)⟩

/-- C10 witness: the concrete daily record produced from one hourly record
of value 10 (threshold 1) satisfies min <= mean <= max. -/
theorem daily_min_le_mean_le_max_witness :
    exDailyC10 ∈ daily_stats exHourlyC10 1 ∧
      (exDailyC10.min ≤ exDailyC10.mean ∧ exDailyC10.mean ≤ exDailyC10.max) := by
  have hmem : exDailyC10 ∈ daily_stats exHourlyC10 1 := by
    simp [daily_stats, exHourlyC10, exDailyC10, groupKeys, dailyKey, dailyGroup,
      mkDaily, qmean, listMinD, listMaxD, roundHalfUp, List.filter]
    norm_num
  exact ⟨hmem, daily_min_le_mean_le_max exHourlyC10 1 exDailyC10 hmem⟩

/-- C9: in every `MonthlyRecord` the exceedance counts are nested and
bounded by the day count: days_abv_300 <= days_abv_200 <= days_abv_norm
<= days_num, because the same daily means are tallied against the strictly
increasing thresholds 50 < 200 < 300 and days_num counts the whole group. -/
theorem monthly_exceedance_counts_nested (daily : List DailyRecord)
    (m : MonthlyRecord) (hm : m ∈ (monthly_stats daily).2) :
    m.days_abv_300 ≤ m.days_abv_200 ∧ m.days_abv_200 ≤ m.days_abv_norm ∧
      m.days_abv_norm ≤ m.days_num := by
  simp only [monthly_stats] at hm
  have hm' := (sortBy_perm MonthlyRecord.leb _).mem_iff.mp hm
  rcases List.mem_map.mp hm' with ⟨k, hk, rfl⟩
  simp only [mkMonthly]
  refine ⟨?_, ?_, ?_⟩
  · apply length_filter_mono
    intro x _ hx
    simp only [decide_eq_true_eq] at hx ⊢
    omega
  · apply length_filter_mono
    intro x _ hx
    simp only [decide_eq_true_eq] at hx ⊢
    omega
  · exact le_trans (List.length_filter_le _ _) (le_of_eq (List.length_map _ _))

/-- C9 witness: the monthly record produced from the one-day daily dataset
`exDailyC9` has counts 0 <= 0 <= 0 <= 1. -/
theorem monthly_exceedance_counts_nested_witness :
    exMonthlyC9 ∈ (monthly_stats exDailyC9).2 ∧
      (exMonthlyC9.days_abv_300 ≤ exMonthlyC9.days_abv_200 ∧
        exMonthlyC9.days_abv_200 ≤ exMonthlyC9.days_abv_norm ∧
        exMonthlyC9.days_abv_norm ≤ exMonthlyC9.days_num) := by
  have hmem : exMonthlyC9 ∈ (monthly_stats exDailyC9).2 := by
    simp [monthly_stats, exDailyC9, exMonthlyC9, truncDaily, truncToMonth,
      groupKeys, monthlyKey, monthlyGroup, mkMonthly, sortBy, insertSorted,
      qmean, listMaxD, roundHalfUp, List.filter]
    norm_num
  exact ⟨hmem, monthly_exceedance_counts_nested exDailyC9 exMonthlyC9 hmem⟩

/-- C4: every `MonthlyRecord` of the monthly stage carries, for its
(station_id, month) group of (date-truncated) daily records: mean =
round_half_up(mean of the rounded daily means), max = round_half_up(max of
the daily maxes), days_num = the group size, and days_abv_norm,
days_abv_200, days_abv_300 = the number of daily means strictly greater
than 50, 200 and 300 respectively. -/
theorem monthly_stage_aggregates (daily : List DailyRecord)
    (m : MonthlyRecord) (hm : m ∈ (monthly_stats daily).2) :
    m.mean = roundHalfUp (qmean (((monthlyGroup (truncDaily daily)
        (m.station_id, m.date)).map DailyRecord.mean).map Int.cast)) ∧
      m.max = roundHalfUp (listMaxD 0 (((monthlyGroup (truncDaily daily)
        (m.station_id, m.date)).map DailyRecord.max).map Int.cast)) ∧
      m.days_num = (monthlyGroup (truncDaily daily)
        (m.station_id, m.date)).length ∧
      m.days_abv_norm = (((monthlyGroup (truncDaily daily)
        (m.station_id, m.date)).map DailyRecord.mean).filter
          (fun x => 50 < x)).length ∧
      m.days_abv_200 = (((monthlyGroup (truncDaily daily)
        (m.station_id, m.date)).map DailyRecord.mean).filter
          (fun x => 200 < x)).length ∧
      m.days_abv_300 = (((monthlyGroup (truncDaily daily)
        (m.station_id, m.date)).map DailyRecord.mean).filter
          (fun x => 300 < x)).length := by
  simp only [monthly_stats] at hm
  have hm' := (sortBy_perm MonthlyRecord.leb _).mem_iff.mp hm
  rcases List.mem_map.mp hm' with ⟨k, hk, rfl⟩
  exact ⟨rfl, rfl, rfl, rfl, rfl, rfl⟩

/-- C4 witness: a month of daily means [40, 60, 210, 310] (station 1,
April 2019) yields the single monthly record with mean 155, max 310,
days_num 4, days_abv_norm 3, days_abv_200 2, days_abv_300 1, matching the
group aggregations. -/
theorem monthly_stage_aggregates_witness :
    exMonthlyC4 ∈ (monthly_stats exDailyC4).2 ∧
      (exMonthlyC4.mean = roundHalfUp (qmean (((monthlyGroup (truncDaily exDailyC4)
          (exMonthlyC4.station_id, exMonthlyC4.date)).map DailyRecord.mean).map Int.cast)) ∧
        exMonthlyC4.max = roundHalfUp (listMaxD 0 (((monthlyGroup (truncDaily exDailyC4)
          (exMonthlyC4.station_id, exMonthlyC4.date)).map DailyRecord.max).map Int.cast)) ∧
        exMonthlyC4.days_num = (monthlyGroup (truncDaily exDailyC4)
          (exMonthlyC4.station_id, exMonthlyC4.date)).length ∧
        exMonthlyC4.days_abv_norm = (((monthlyGroup (truncDaily exDailyC4)
          (exMonthlyC4.station_id, exMonthlyC4.date)).map DailyRecord.mean).filter
            (fun x => 50 < x)).length ∧
        exMonthlyC4.days_abv_200 = (((monthlyGroup (truncDaily exDailyC4)
          (exMonthlyC4.station_id, exMonthlyC4.date)).map DailyRecord.mean).filter
            (fun x => 200 < x)).length ∧
        exMonthlyC4.days_abv_300 = (((monthlyGroup (truncDaily exDailyC4)
          (exMonthlyC4.station_id, exMonthlyC4.date)).map DailyRecord.mean).filter
            (fun x => 300 < x)).length) := by
  have hmem : exMonthlyC4 ∈ (monthly_stats exDailyC4).2 := by
    simp [monthly_stats, exDailyC4, exMonthlyC4, truncDaily, truncToMonth,
      groupKeys, monthlyKey, monthlyGroup, mkMonthly, sortBy, insertSorted,
      qmean, listMaxD, roundHalfUp, List.filter]
    norm_num
  exact ⟨hmem, monthly_stage_aggregates exDailyC4 exMonthlyC4 hmem⟩

/-- C7: every record after `perc_of_norm` has
perc_of_norm = round_half_up(mean / norm * 100), the rounded daily mean
divided by the norm constant times 100, rounded half-up. -/
theorem perc_of_norm_rounded_ratio (norm : ℚ) (daily : List DailyRecord)
    (d : DailyRecord) (hd : d ∈ perc_of_norm norm daily) :
    d.perc_of_norm = some (roundHalfUp ((d.mean : ℚ) / norm * 100)) := by
  simp only [perc_of_norm] at hd
  rcases List.mem_map.mp hd with ⟨d0, _, rfl⟩
  rfl

/-- C7 witness: a daily mean of 75 with norm 50 gives perc_of_norm 150. -/
theorem perc_of_norm_rounded_ratio_witness :
    exDailyC7out ∈ perc_of_norm 50 exDailyC7 ∧
      exDailyC7out.perc_of_norm =
        some (roundHalfUp ((exDailyC7out.mean : ℚ) / 50 * 100)) := by
  have hmem : exDailyC7out ∈ perc_of_norm 50 exDailyC7 := by
    simp [perc_of_norm, exDailyC7, exDailyC7out, roundHalfUp]
    norm_num
  exact ⟨hmem, perc_of_norm_rounded_ratio 50 exDailyC7 exDailyC7out hmem⟩

/-- C8: on a missing input file, an unsupported input extension, or a
missing station file, the run terminates with an error (non-zero exit) and
the failing stage writes no output: the monthly output file is never
written, and when the input itself is bad no output file at all is
written (no later stage runs). -/
theorem config_errors_are_fatal (inp : PipelineInput)
    (lower_band upper_band : Timestamp) (min_hour : ℕ) (norm : ℚ)
    (h : inp.inputExists = false ∨
      (inp.extension ≠ ".db" ∧ inp.extension ≠ ".csv") ∨
      inp.stationExists = false) :
    (run_pipeline inp lower_band upper_band min_hour norm).exitError.isSome
        = true ∧
      "monthly_stats.csv" ∉
        (run_pipeline inp lower_band upper_band min_hour norm).outputs ∧
      ((inp.inputExists = false ∨
          (inp.extension ≠ ".db" ∧ inp.extension ≠ ".csv")) →
        (run_pipeline inp lower_band upper_band min_hour norm).outputs = []) := by
  by_cases h1 : inp.inputExists = false
  · simp [run_pipeline, read_data, h1]
  · have h1' : inp.inputExists = true := by
      cases hx : inp.inputExists
      · exact absurd hx h1
      · rfl
    by_cases h2 : inp.extension = ".db" ∨ inp.extension = ".csv"
    · have h3 : inp.stationExists = false := by
        rcases h with h | h | h
        · exact absurd h h1
        · rcases h2 with h2 | h2
          · exact absurd h2 h.1
          · exact absurd h2 h.2
        · exact h
      rcases h2 with h2 | h2
      · simp [run_pipeline, read_data, add_station_info, h1', h2, h3]
      · by_cases h2' : inp.extension = ".db"
        · simp [run_pipeline, read_data, add_station_info, h1', h2', h3]
        · simp [run_pipeline, read_data, add_station_info, h1', h2, h2', h3]
    · push_neg at h2
      simp [run_pipeline, read_data, h1', h2.1, h2.2]

/-- C8 witness: with a missing input file the run exits with an error and
writes nothing. -/
theorem config_errors_are_fatal_witness :
    (exInputC8.inputExists = false ∨
        (exInputC8.extension ≠ ".db" ∧ exInputC8.extension ≠ ".csv") ∨
        exInputC8.stationExists = false) ∧
      ((run_pipeline exInputC8 ⟨⟨2019, 4, 1⟩, 0, 0⟩ ⟨⟨2019, 5, 1⟩, 0, 0⟩
            18 50).exitError.isSome = true ∧
        "monthly_stats.csv" ∉
          (run_pipeline exInputC8 ⟨⟨2019, 4, 1⟩, 0, 0⟩ ⟨⟨2019, 5, 1⟩, 0, 0⟩
            18 50).outputs ∧
        ((exInputC8.inputExists = false ∨
            (exInputC8.extension ≠ ".db" ∧ exInputC8.extension ≠ ".csv")) →
          (run_pipeline exInputC8 ⟨⟨2019, 4, 1⟩, 0, 0⟩ ⟨⟨2019, 5, 1⟩, 0, 0⟩
            18 50).outputs = [])) :=
  ⟨Or.inl rfl,
    config_errors_are_fatal exInputC8 ⟨⟨2019, 4, 1⟩, 0, 0⟩
      ⟨⟨2019, 5, 1⟩, 0, 0⟩ 18 50 (Or.inl rfl)⟩
